import Mathlib

/-!
Shallow embedding of the Slint Python code generator
(`internal/compiler/generator/python.rs`) and proofs about it.

Strings model `SmolStr`; `Option` models fallible or panicking code
(`none` stands for a `panic!`, `todo!` or `unimplemented!` abort, and for
the `io::Error` early returns of `generate`).
-/

namespace SlintPy

/-- The set of Python keywords from `is_python_keyword`. -/
def pythonKeywords : List String :=
  ["False", "await", "else", "import", "pass", "None", "break", "except", "in", "raise",
   "True", "class", "finally", "is", "return", "and", "continue", "for", "lambda", "try",
   "as", "def", "from", "nonlocal", "while", "assert", "del", "global", "not", "with",
   "async", "elif", "if", "or", "yield"]

/-- Embeds `is_python_keyword`: membership in the keyword set. -/
def is_python_keyword (word : String) : Bool :=
  pythonKeywords.contains word

/-- Character-wise replacement of hyphens by underscores, embedding
`ident.replace_smolstr("-", "_")` (the pattern is a single character,
so the replacement is a character map). -/
def replaceHyphens (s : String) : String :=
  String.mk (s.data.map (fun c => if c = '-' then '_' else c))

/-- Embeds the identifier sanitizer `ident`. -/
def ident (s : String) : String :=
  let new_ident := if s.data.contains '-' then replaceHyphens s else s
  if is_python_keyword new_ident then new_ident ++ "_" else new_ident

/-- Semantic types, embedding the `Type` variants that `python.rs`
inspects.  A struct carries its optional name, the presence of its
declaration node, and its ordered field list; an enumeration carries its
name and its case values.  `Unsupported` stands for the remaining
variants of the compiler's `Type`, which hit the catch-all
`unimplemented!` arm of `python_type_name`. -/
inductive Ty where
  | Invalid : Ty
  | Void : Ty
  | Str : Ty
  | Color : Ty
  | Float32 : Ty
  | Int32 : Ty
  | Duration : Ty
  | Angle : Ty
  | PhysicalLength : Ty
  | LogicalLength : Ty
  | Percent : Ty
  | UnitProduct : Ty
  | Image : Ty
  | Bool : Ty
  | Brush : Ty
  | Array : Ty → Ty
  | Struct : Option String → Option Unit → List (String × Ty) → Ty
  | Enumeration : String → List String → Ty
  | Callback : List Ty → Ty → Ty
  | Function : List Ty → Ty → Ty
  | Unsupported : Ty

mutual

/-- Embeds `python_type_name`.  `none` models the panicking arms:
`Type::Invalid => panic!`, the `todo!()` for a named struct without a
declaration node, and the catch-all `unimplemented!`. -/
def python_type_name : Ty → Option String
  | .Invalid => none
  | .Void => some "None"
  | .Str => some "str"
  | .Color => some "slint.Color"
  | .Float32 => some "float"
  | .Int32 => some "float"
  | .Duration => some "float"
  | .Angle => some "float"
  | .PhysicalLength => some "float"
  | .LogicalLength => some "float"
  | .Percent => some "float"
  | .UnitProduct => some "float"
  | .Image => some "slint.Image"
  | .Bool => some "bool"
  | .Brush => some "Brush"
  | .Array elem_type =>
    match python_type_name elem_type with
    | some e => some ("slint.Model[" ++ e ++ "]")
    | none => none
  | .Struct (some name) (some _) _ => some (ident name)
  | .Struct (some _) none _ => none
  | .Struct none _ fields =>
    match fieldTypeNames fields with
    | some tuple_types => some ("typing.Tuple[" ++ String.intercalate ", " tuple_types ++ "]")
    | none => none
  | .Enumeration name _ => some (ident name)
  | .Callback args ret =>
    match argTypeNames args, python_type_name ret with
    | some as_, some r => some ("typing.Callable[[" ++ String.intercalate ", " as_ ++ "], " ++ r ++ "]")
    | _, _ => none
  | .Function args ret =>
    match argTypeNames args, python_type_name ret with
    | some as_, some r => some ("typing.Callable[[" ++ String.intercalate ", " as_ ++ "], " ++ r ++ "]")
    | _, _ => none
  | .Unsupported => none

/-- Maps `python_type_name` over the value types of a struct's field
map (`s.fields.values().map(|ty| python_type_name(ty))`). -/
def fieldTypeNames : List (String × Ty) → Option (List String)
  | [] => some []
  | p :: ps =>
    match python_type_name p.2, fieldTypeNames ps with
    | some t, some ts => some (t :: ts)
    | _, _ => none

/-- Maps `python_type_name` over a callback's argument types. -/
def argTypeNames : List Ty → Option (List String)
  | [] => some []
  | t :: ts =>
    match python_type_name t, argTypeNames ts with
    | some n, some ns => some (n :: ns)
    | _, _ => none

end

/-! The Python AST model (`mod python_ast`) -/

/-- Embeds `python_ast::PyType`. -/
structure PyType where
  name : String
  optional : Bool
deriving DecidableEq

/-- Embeds `python_ast::Field`. -/
structure Field where
  name : String
  ty : Option PyType
  default_value : Option String
deriving DecidableEq

/-- Embeds `python_ast::FunctionDeclaration`. -/
structure FunctionDeclaration where
  name : String
  positional_parameters : List String
  keyword_parameters : List Field
  return_type : Option PyType
deriving DecidableEq

/-- Embeds `python_ast::Class`. -/
structure Class where
  name : String
  super_class : Option String := none
  fields : List Field := []
  function_declarations : List FunctionDeclaration := []
deriving DecidableEq

/-- Embeds `python_ast::Variable`. -/
structure Variable where
  name : String
  value : String
deriving DecidableEq

/-- Embeds `python_ast::Declaration`. -/
inductive Declaration where
  | Class : Class → Declaration
  | Variable : Variable → Declaration
deriving DecidableEq

/-- Embeds `python_ast::File`. -/
structure File where
  imports : List String := []
  declarations : List Declaration := []
  trailing_code : List String := []
deriving DecidableEq

/-! Section: The emitter (the `Display` implementations of `python_ast`) -/

/-- Embeds `Display for PyType`. -/
def renderPyType (t : PyType) : String :=
  if t.optional then "typing.Optional[" ++ t.name ++ "]" else t.name

/-- Embeds `Display for Field`. -/
def renderField (f : Field) : String :=
  f.name
    ++ (match f.ty with
        | some t => ": " ++ renderPyType t
        | none => "")
    ++ (match f.default_value with
        | some d => " = " ++ d
        | none => "")

/-- Embeds `Display for FunctionDeclaration` (the final `writeln!`
appends a newline). -/
def renderFunctionDeclaration (d : FunctionDeclaration) : String :=
  "def " ++ d.name ++ "(self"
    ++ (if d.positional_parameters.isEmpty then ""
        else ", " ++ String.intercalate "," d.positional_parameters)
    ++ (if d.keyword_parameters.isEmpty then ""
        else ", *" ++ ", " ++ String.intercalate ", " (d.keyword_parameters.map renderField))
    ++ ") -> "
    ++ (match d.return_type with
        | some ty => renderPyType ty
        | none => "None")
    ++ ": ...\n"

/-- The class header line of `Display for Class`. -/
def renderClassHeader (c : Class) : String :=
  match c.super_class with
  | some super_class => "class " ++ c.name ++ "(" ++ super_class ++ "):\n"
  | none => "class " ++ c.name ++ ":\n"

/-- The non-empty body of `Display for Class`: the indented fields, a
separating blank line after a non-empty field list, then the indented
function declarations. -/
def renderClassBody (c : Class) : String :=
  String.join (c.fields.map (fun field => "    " ++ renderField field ++ "\n"))
    ++ (if c.fields.isEmpty then "" else "\n")
    ++ String.join (c.function_declarations.map
         (fun fundecl => "    " ++ renderFunctionDeclaration fundecl ++ "\n"))

/-- Embeds `Display for Class`: header, then `pass` when the class has
neither fields nor function declarations, else the body. -/
def renderClass (c : Class) : String :=
  renderClassHeader c
    ++ (if c.fields.isEmpty && c.function_declarations.isEmpty then "    pass\n"
        else renderClassBody c)

/-- Embeds `Display for Variable`. -/
def renderVariable (v : Variable) : String :=
  v.name ++ " = " ++ v.value ++ "\n"

/-- Embeds `Display for Declaration` (derived via `derive_more::Display`). -/
def renderDeclaration : Declaration → String
  | .Class c => renderClass c
  | .Variable v => renderVariable v

/-- An apostrophe (single-quote) character as a string. -/
def sq : String := String.singleton (Char.ofNat 39)

/-- Embeds `Display for File`. -/
def renderFile (f : File) : String :=
  "# This file is auto-generated\n\n"
    ++ String.join (f.imports.map (fun i => "import " ++ i ++ "\n"))
    ++ "\n"
    ++ String.join (f.declarations.map (fun d => renderDeclaration d ++ "\n"))
    ++ String.join (f.trailing_code.map (fun c => c ++ "\n"))

/-! Section: Inputs of the generator: the lowered tree and the export table -/

/-- A public property: a `(name, type)` pair. -/
structure PublicProperty where
  name : String
  ty : Ty

/-- Embeds the parts of `llr::GlobalComponent` that `python.rs` reads.
`exported` and `must_generate` are the two filters applied in
`generate`; `aliases` are the additional export names. -/
structure GlobalComponent where
  name : String
  exported : Bool
  must_generate : Bool
  aliases : List String
  public_properties : List PublicProperty

/-- Embeds the parts of `llr::PublicComponent` that `python.rs` reads. -/
structure PublicComponent where
  name : String
  public_properties : List PublicProperty

/-- Embeds the parts of an exported component that
`generate_named_exports` reads: its id and whether it is a global. -/
structure ExportedComponent where
  id : String
  is_global : Bool

/-- The target of an export-table entry: either a component or a type. -/
inductive ExportTarget where
  | component : ExportedComponent → ExportTarget
  | ty : Ty → ExportTarget

/-- The export table: ordered `(external name, target)` entries,
embedding `object_tree::Exports`. -/
abbrev Exports := List (String × ExportTarget)

/-- Embeds the parts of `object_tree::Document` that `python.rs` reads:
the type catalogue, the export table, and the optional source node
carrying the main file path. -/
structure Document where
  structs_and_enums : List Ty
  exports : Exports
  node : Option String

/-- Embeds the parts of the lowered item tree (`llr`) that `python.rs`
reads. -/
structure LoweredTree where
  globals : List GlobalComponent
  public_components : List PublicComponent

/-- Abstract filesystem/path operations used by `generate`:
`std::path::absolute`, `Path::parent`, `Path::file_name`,
`pathdiff::diff_paths` and `Path::join`. -/
structure PathEnv where
  absolute : String → Option String
  parent : String → Option String
  file_name : String → Option String
  diff_paths : String → String → Option String
  join : String → String → String

/-! Section: The generator -/

/-- One field per public property, embedding
`generate_fields_for_public_properties`; `none` models a panic of
`python_type_name` on a property type. -/
def generate_fields_for_public_properties : List PublicProperty → Option (List Field)
  | [] => some []
  | property :: rest =>
    match python_type_name property.ty, generate_fields_for_public_properties rest with
    | some tn, some fs =>
      some ({ name := ident property.name,
              ty := some { name := tn, optional := false },
              default_value := none } :: fs)
    | _, _ => none

/-- Embeds `generate_global`: the global's class (no superclass, one
field per public property) followed by one `Variable` per alias. -/
def generate_global (global : GlobalComponent) : Option (List Declaration) :=
  match generate_fields_for_public_properties global.public_properties with
  | none => none
  | some fs =>
    some (Declaration.Class
            { name := ident global.name, super_class := none,
              fields := fs, function_declarations := [] }
          :: global.aliases.map (fun exported_name =>
               Declaration.Variable { name := ident exported_name, value := ident global.name }))

/-- Embeds `generate_public_component`: a class named after the
component, superclass `slint.Component`, fields from the public
properties chained with one field per passed-in global. -/
def generate_public_component (component : PublicComponent)
    (globals : List GlobalComponent) : Option Declaration :=
  match generate_fields_for_public_properties component.public_properties with
  | none => none
  | some fs =>
    some (Declaration.Class
      { name := ident component.name,
        super_class := some "slint.Component",
        fields := fs ++ globals.map (fun glob =>
          { name := ident glob.name,
            ty := some { name := ident glob.name, optional := false },
            default_value := none }),
        function_declarations := [] })

/-- Embeds `generate_named_exports` step 1: the `filter_map` that keeps
non-global components, named declared structs and enumerations, paired
as `(external name, internal name)`. -/
def exportCandidate : String × ExportTarget → Option (String × String)
  | (name, .component c) => if c.is_global then none else some (name, c.id)
  | (name, .ty (Ty.Struct (some n) (some _) _)) => some (name, n)
  | (name, .ty (Ty.Enumeration n _)) => some (name, n)
  | (_, .ty _) => none

/-- Embeds `generate_named_exports`: candidates, filtered by raw-name
inequality, mapped to alias `Variable` declarations over sanitized
names. -/
def generate_named_exports (exports : Exports) : List Declaration :=
  ((exports.filterMap exportCandidate).filter (fun p => p.1 != p.2)).map
    (fun p => Declaration.Variable { name := ident p.1, value := ident p.2 })

/-- The synthesized `__init__` declaration for a named struct: no
positional parameters, each field turned into an optional, `None`
defaulted keyword parameter. -/
def structCtor (fields : List Field) : FunctionDeclaration :=
  { name := "__init__",
    positional_parameters := [],
    keyword_parameters := fields.map (fun field =>
      { field with
        ty := field.ty.map (fun t => { t with optional := true }),
        default_value := some "None" }),
    return_type := none }

/-- The class emitted for a named struct in the type catalogue: raw
(unsanitized) name, no superclass, the struct's fields and the
synthesized constructor. -/
def structClass (name : String) (fs : List Field) : Class :=
  { name := name, super_class := none, fields := fs,
    function_declarations := [structCtor fs] }

/-- The field list emitted for a named struct: one field per struct
field, sanitized name and mapped type. -/
def structFields : List (String × Ty) → Option (List Field)
  | [] => some []
  | p :: ps =>
    match python_type_name p.2, structFields ps with
    | some tn, some fs =>
      some ({ name := ident p.1,
              ty := some { name := tn, optional := false },
              default_value := none } :: fs)
    | _, _ => none

/-- The class emitted for an enumeration: raw (unsanitized) name,
superclass `enum.StrEnum`, one field per case with sanitized field name
and the raw case name as quoted default value. -/
def enumClass (name : String) (values : List String) : Class :=
  { name := name,
    super_class := some "enum.StrEnum",
    fields := values.map (fun val =>
      { name := ident val, ty := none, default_value := some ("\"" ++ val ++ "\"") }),
    function_declarations := [] }

/-- The catalogue loop of `generate` (`for ty in
&doc.used_types.borrow().structs_and_enums`): the declarations pushed,
and whether `need_enums_import` was set. -/
def catalogueDecls : List Ty → Option (List Declaration × Bool)
  | [] => some ([], false)
  | Ty.Struct (some name) _ sfields :: ts =>
    match structFields sfields, catalogueDecls ts with
    | some fs, some (rest, flag) =>
      some (Declaration.Class (structClass name fs) :: rest, flag)
    | _, _ => none
  | Ty.Enumeration name values :: ts =>
    match catalogueDecls ts with
    | some (rest, _) => some (Declaration.Class (enumClass name values) :: rest, true)
    | none => none
  | _ :: ts => catalogueDecls ts

/-- The globals loop of `generate`: each exported, must-generate global
contributes its declarations in order. -/
def generateGlobalDecls : List GlobalComponent → Option (List Declaration)
  | [] => some []
  | g :: gs =>
    match generate_global g, generateGlobalDecls gs with
    | some ds, some rest => some (ds ++ rest)
    | _, _ => none

/-- The public-components loop of `generate`. -/
def generateComponentDecls (globals : List GlobalComponent) :
    List PublicComponent → Option (List Declaration)
  | [] => some []
  | c :: cs =>
    match generate_public_component c globals, generateComponentDecls globals cs with
    | some d, some rest => some (d :: rest)
    | _, _ => none

/-- The destination directory: the absolutized destination path's
parent, embedding
`destination_path.and_then(|p| absolute(p).ok().and_then(parent))`. -/
def destDirOf (env : PathEnv) (destination_path : Option String) : Option String :=
  destination_path.bind (fun p => (env.absolute p).bind env.parent)

/-- The relative path from the destination directory to the main file's
directory.  The outer `Option` models the `main_file.parent().unwrap()`
panic (only evaluated when a destination directory exists); the inner
`Option` is `pathdiff::diff_paths`'s result. -/
def relPathOf (env : PathEnv) (main_file : String) (destDir : Option String) :
    Option (Option String) :=
  match destDir with
  | none => some none
  | some d =>
    match env.parent main_file with
    | none => none
    | some mp => some (env.diff_paths mp d)

/-- The dynamic-load trailing statement, with `p` the joined relative
path to the main file. -/
def trailingStmt (p : String) : String :=
  "globals().update(vars(slint.load_file(os.path.join(os.path.dirname(__file__), "
    ++ sq ++ p ++ sq ++ "))))"

/-- Embeds `generate`: builds the `File` for one compiled unit.  `none`
models every abort: a panicking `python_type_name`, the missing
`doc.node` error, and the `unwrap`s on the main file's path. -/
def generate (env : PathEnv) (doc : Document) (llr : LoweredTree)
    (destination_path : Option String) : Option File :=
  match catalogueDecls doc.structs_and_enums with
  | none => none
  | some (catDecls, need_enums_import) =>
    let globals := llr.globals.filter (fun glob => glob.exported && glob.must_generate)
    match generateGlobalDecls globals with
    | none => none
    | some globDecls =>
      match generateComponentDecls globals llr.public_components with
      | none => none
      | some compDecls =>
        let declarations :=
          catDecls ++ globDecls ++ compDecls ++ generate_named_exports doc.exports
        let imports := ["slint", "typing"] ++ (if need_enums_import then ["enum"] else [])
        match doc.node with
        | none => none
        | some nodePath =>
          match env.absolute nodePath with
          | none => none
          | some main_file =>
            match relPathOf env main_file (destDirOf env destination_path) with
            | none => none
            | some none =>
              some { imports := imports, declarations := declarations, trailing_code := [] }
            | some (some rel) =>
              match env.file_name main_file with
              | none => none
              | some fname =>
                some { imports := imports ++ ["os"],
                       declarations := declarations,
                       trailing_code := [trailingStmt (env.join rel fname)] }

/-! Section: Lemmas about the identifier sanitizer -/

theorem map_hyphens_of_not_mem (l : List Char) (h : ('-') ∉ l) :
    l.map (fun c => if c = '-' then '_' else c) = l := by
  induction l with
  | nil => rfl
  | cons a as ih =>
    simp only [List.mem_cons, not_or] at h
    simp only [List.map_cons]
    rw [if_neg (fun he => h.1 he.symm), ih h.2]

theorem contains_false_not_mem (l : List Char) (h : l.contains '-' = false) :
    ('-') ∉ l := by
  intro hmem
  have he : l.elem '-' = true := List.elem_iff.mpr hmem
  change l.elem '-' = false at h
  rw [he] at h
  cases h

theorem replaceHyphens_of_not_contains (s : String)
    (h : s.data.contains '-' = false) : replaceHyphens s = s := by
  show String.mk (s.data.map _) = s
  rw [map_hyphens_of_not_mem s.data (contains_false_not_mem s.data h)]

theorem ident_eq (s : String) :
    ident s = if is_python_keyword (replaceHyphens s) then replaceHyphens s ++ "_"
              else replaceHyphens s := by
  unfold ident
  cases h : s.data.contains '-' with
  | true => simp
  | false => rw [replaceHyphens_of_not_contains s h]; simp

theorem not_mem_map_hyphens (l : List Char) :
    ('-') ∉ l.map (fun c => if c = '-' then '_' else c) := by
  intro hm
  obtain ⟨a, _, ha⟩ := List.mem_map.mp hm
  by_cases h : a = '-' <;> simp [h] at ha

theorem replaceHyphens_no_hyphen (s : String) : ('-') ∉ (replaceHyphens s).data :=
  not_mem_map_hyphens s.data

theorem ident_no_hyphen (s : String) : ('-') ∉ (ident s).data := by
  rw [ident_eq]
  by_cases h : is_python_keyword (replaceHyphens s)
  · rw [if_pos h, String.data_append]
    intro hm
    rcases List.mem_append.mp hm with hm' | hm'
    · exact replaceHyphens_no_hyphen s hm'
    · simp at hm'
  · rw [if_neg h]
    exact replaceHyphens_no_hyphen s

theorem keyword_no_hyphen (s : String) (h : is_python_keyword s = true) :
    s.data.contains '-' = false := by
  have hmem : s ∈ pythonKeywords := List.elem_iff.mp h
  fin_cases hmem <;> decide

theorem ident_ne_self (s : String)
    (h : s.data.contains '-' = true ∨ is_python_keyword s = true) :
    ident s ≠ s := by
  by_cases hc : s.data.contains '-' = true
  · intro he
    have hmem : ('-') ∈ s.data := List.elem_iff.mp hc
    rw [← he] at hmem
    exact ident_no_hyphen s hmem
  · have hk : is_python_keyword s = true := by
      rcases h with h | h
      · exact absurd h hc
      · exact h
    have hcf : s.data.contains '-' = false := by
      cases hcc : s.data.contains '-' with
      | true => exact absurd hcc hc
      | false => rfl
    rw [ident_eq, replaceHyphens_of_not_contains s hcf, if_pos hk]
    intro he
    have hl := congrArg String.length he
    rw [String.length_append] at hl
    have h1 : ("_" : String).length = 1 := rfl
    rw [h1] at hl
    omega

/-- C5: the identifier sanitizer first replaces every hyphen with an
underscore, then appends a single trailing underscore exactly when the
result is a Python keyword; it makes no other change, so an already
hyphen-free, non-keyword identifier comes back unchanged. -/
theorem C5_ident_spec (s : String) :
    ident s = (if is_python_keyword (replaceHyphens s) then replaceHyphens s ++ "_"
               else replaceHyphens s) ∧
    (s.data.contains '-' = false → is_python_keyword s = false → ident s = s) := by
  refine ⟨ident_eq s, fun hc hk => ?_⟩
  rw [ident_eq, replaceHyphens_of_not_contains s hc, if_neg (by simp [hk])]

/-- Witness for C5 at concrete inputs. -/
theorem C5_ident_spec_witness : ident "abc" = "abc" :=
  (C5_ident_spec "abc").2 (by decide) (by decide)

/-! Section: C2: the export alias generator -/

/-- The aliases contributed by one export-table entry, as amended from
the claim: no alias when the entry is skipped or when the external name
equals the internal declared (raw) name, else exactly one alias over
sanitized names. -/
def aliasesForEntry (e : String × ExportTarget) : List Declaration :=
  match exportCandidate e with
  | none => []
  | some (ext, intern) =>
    if ext = intern then []
    else [Declaration.Variable { name := ident ext, value := ident intern }]

/-- Per-entry, order-preserving restatement of the export alias list. -/
def namedExportAliases : Exports → List Declaration
  | [] => []
  | e :: es => aliasesForEntry e ++ namedExportAliases es

/-- C2 (amended): `generate_named_exports` emits, in export-table
order, exactly one alias per qualifying entry whose external name
differs from the internal declared (raw) name, and no alias when the
two raw names are equal.  (The comparison is on raw names, not on the
legalized name.) -/
theorem C2_named_exports (exports : Exports) :
    generate_named_exports exports = namedExportAliases exports := by
  induction exports with
  | nil => rfl
  | cons e es ih =>
    unfold generate_named_exports at ih ⊢
    unfold namedExportAliases aliasesForEntry
    rw [List.filterMap_cons]
    cases hc : exportCandidate e with
    | none => simpa using ih
    | some p =>
      obtain ⟨ext, intern⟩ := p
      by_cases he : ext = intern
      · simp [List.filter_cons, he, ih]
      · simp [List.filter_cons, he, ih]

/-- C2 counterexample: exporting the enumeration declared `try` under
the external name `try_` makes the external name equal to the internal
legalized name (`ident "try" = "try_"`), yet one (self-)alias is still
emitted, because the code compares raw names. -/
theorem C2_counterexample :
    generate_named_exports [("try_", ExportTarget.ty (Ty.Enumeration "try" []))] =
      [Declaration.Variable { name := "try_", value := "try_" }] ∧
    ident "try" = "try_" := by
  exact ⟨rfl, rfl⟩

/-! Section: C1: the type mapper on structs -/

/-- C1 (amended): a struct with a declared name and a declaration node
maps to the sanitized name; a struct with no name at all maps to the
anonymous tuple expression over the mapped field types; a named struct
without a declaration node hits the unimplemented arm and aborts. -/
theorem C1_struct_mapping (name : String) (u : Unit) (node : Option Unit)
    (sfields : List (String × Ty)) (ts : List String)
    (h : fieldTypeNames sfields = some ts) :
    python_type_name (Ty.Struct (some name) (some u) sfields) = some (ident name) ∧
    python_type_name (Ty.Struct none node sfields) =
      some ("typing.Tuple[" ++ String.intercalate ", " ts ++ "]") ∧
    python_type_name (Ty.Struct (some name) none sfields) = none := by
  refine ⟨?_, ?_, ?_⟩ <;> simp [python_type_name, h]

/-- C1 counterexample: a struct that carries a name but no declaration
node is mapped by neither of the claim's two arms: the code hits
`todo!()` and aborts instead of producing any type expression. -/
theorem C1_counterexample :
    python_type_name (Ty.Struct (some "Foo") none [("x", Ty.Float32)]) = none := by
  simp [python_type_name]

/-- Witness for C1 at concrete inputs. -/
theorem C1_struct_mapping_witness :
    python_type_name (Ty.Struct (some "for") (some ()) [("x", Ty.Float32)]) =
      some "for_" ∧
    python_type_name (Ty.Struct none none [("x", Ty.Float32)]) =
      some "typing.Tuple[float]" ∧
    python_type_name (Ty.Struct (some "for") none [("x", Ty.Float32)]) = none := by
  obtain ⟨h1, h2, h3⟩ := C1_struct_mapping "for" () none [("x", Ty.Float32)] ["float"]
    (by simp [fieldTypeNames, python_type_name])
  refine ⟨?_, ?_, h3⟩
  · rw [h1]; rfl
  · rw [h2]; rfl

/-! Section: Lemmas about the type-catalogue loop -/

/-- Composition of two catalogue-loop results: concatenated
declarations, disjunction of the enum flags. -/
def catCombine : Option (List Declaration × Bool) → Option (List Declaration × Bool) →
    Option (List Declaration × Bool)
  | some (da, fa), some (db, fb) => some (da ++ db, fa || fb)
  | _, _ => none

theorem catalogueDecls_append (a b : List Ty) :
    catalogueDecls (a ++ b) = catCombine (catalogueDecls a) (catalogueDecls b) := by
  induction a with
  | nil =>
    cases hb : catalogueDecls b with
    | none => simp [catalogueDecls, catCombine, hb]
    | some pr =>
      obtain ⟨db, fb⟩ := pr
      simp [catalogueDecls, catCombine, hb]
  | cons t ts ih =>
    cases t <;> try (simpa [catalogueDecls] using ih)
    case Struct name? node sf =>
      cases name? with
      | none => simpa [catalogueDecls] using ih
      | some n =>
        simp only [List.cons_append, catalogueDecls, List.append_eq]
        rw [ih]
        cases hsf : structFields sf with
        | none => cases catalogueDecls ts <;> cases catalogueDecls b <;> simp [catCombine]
        | some fs =>
          cases hts : catalogueDecls ts with
          | none => cases catalogueDecls b <;> simp [catCombine]
          | some pa =>
            obtain ⟨da, fa⟩ := pa
            cases hb : catalogueDecls b with
            | none => simp [catCombine]
            | some pb =>
              obtain ⟨db, fb⟩ := pb
              simp [catCombine]
    case Enumeration n vals =>
      simp only [List.cons_append, catalogueDecls, List.append_eq]
      rw [ih]
      cases hts : catalogueDecls ts with
      | none => cases catalogueDecls b <;> simp [catCombine]
      | some pa =>
        obtain ⟨da, fa⟩ := pa
        cases hb : catalogueDecls b with
        | none => simp [catCombine]
        | some pb =>
          obtain ⟨db, fb⟩ := pb
          simp [catCombine]

theorem mem_catalogue_struct {cat : List Ty} {ds : List Declaration} {flag : Bool}
    {name : String} {node : Option Unit} {sfields : List (String × Ty)} {fs : List Field}
    (hcat : catalogueDecls cat = some (ds, flag))
    (hmem : Ty.Struct (some name) node sfields ∈ cat)
    (hsf : structFields sfields = some fs) :
    Declaration.Class (structClass name fs) ∈ ds := by
  obtain ⟨pre, post, rfl⟩ := List.append_of_mem hmem
  rw [catalogueDecls_append] at hcat
  cases hpre : catalogueDecls pre with
  | none => rw [hpre] at hcat; cases hcat
  | some pa =>
    obtain ⟨da, fa⟩ := pa
    rw [hpre] at hcat
    cases hpost : catalogueDecls post with
    | none => simp [catalogueDecls, hsf, hpost, catCombine] at hcat
    | some pb =>
      obtain ⟨rest, fl⟩ := pb
      simp only [catalogueDecls, hsf, hpost, catCombine, Option.some.injEq,
        Prod.mk.injEq] at hcat
      obtain ⟨hds, -⟩ := hcat
      exact hds ▸ List.mem_append_right da (List.mem_cons_self _ _)

theorem mem_catalogue_enum {cat : List Ty} {ds : List Declaration} {flag : Bool}
    {name : String} {values : List String}
    (hcat : catalogueDecls cat = some (ds, flag))
    (hmem : Ty.Enumeration name values ∈ cat) :
    Declaration.Class (enumClass name values) ∈ ds := by
  obtain ⟨pre, post, rfl⟩ := List.append_of_mem hmem
  rw [catalogueDecls_append] at hcat
  cases hpre : catalogueDecls pre with
  | none => rw [hpre] at hcat; cases hcat
  | some pa =>
    obtain ⟨da, fa⟩ := pa
    rw [hpre] at hcat
    cases hpost : catalogueDecls post with
    | none => simp [catalogueDecls, hpost, catCombine] at hcat
    | some pb =>
      obtain ⟨rest, fl⟩ := pb
      simp only [catalogueDecls, hpost, catCombine, Option.some.injEq,
        Prod.mk.injEq] at hcat
      obtain ⟨hds, -⟩ := hcat
      exact hds ▸ List.mem_append_right da (List.mem_cons_self _ _)

/-- Recognizer for a class declaration generated from an enumeration:
its superclass is the string-backed enum base type. -/
def isEnumClassDecl : Declaration → Bool
  | .Class c => c.super_class == some "enum.StrEnum"
  | .Variable _ => false

theorem catalogue_flag {cat : List Ty} {ds : List Declaration} {flag : Bool}
    (hcat : catalogueDecls cat = some (ds, flag)) :
    flag = ds.any isEnumClassDecl := by
  induction cat generalizing ds flag with
  | nil =>
    simp only [catalogueDecls, Option.some.injEq, Prod.mk.injEq] at hcat
    obtain ⟨h1, h2⟩ := hcat
    subst h1 h2
    rfl
  | cons t ts ih =>
    cases t <;> try (exact ih (by simpa [catalogueDecls] using hcat))
    case Struct name? node sf =>
      cases name? with
      | none => exact ih (by simpa [catalogueDecls] using hcat)
      | some n =>
        cases hsf : structFields sf with
        | none => simp [catalogueDecls, hsf] at hcat
        | some fs =>
          cases hts : catalogueDecls ts with
          | none => simp [catalogueDecls, hsf, hts] at hcat
          | some pr =>
            obtain ⟨rest, fl⟩ := pr
            simp only [catalogueDecls, hsf, hts, Option.some.injEq, Prod.mk.injEq] at hcat
            obtain ⟨rfl, rfl⟩ := hcat
            simp [List.any_cons, isEnumClassDecl, structClass, ih hts]
    case Enumeration n vals =>
      cases hts : catalogueDecls ts with
      | none => simp [catalogueDecls, hts] at hcat
      | some pr =>
        obtain ⟨rest, fl⟩ := pr
        simp only [catalogueDecls, hts, Option.some.injEq, Prod.mk.injEq] at hcat
        obtain ⟨rfl, rfl⟩ := hcat
        simp [List.any_cons, isEnumClassDecl, enumClass]

/-- A struct field of the generated class, from a source field and its
mapped type name. -/
def mkStructField (p : String × Ty) (tn : String) : Field :=
  { name := ident p.1, ty := some { name := tn, optional := false }, default_value := none }

theorem structFields_eq_zipWith {sfields : List (String × Ty)} {tns : List String}
    (h : fieldTypeNames sfields = some tns) :
    structFields sfields = some (List.zipWith mkStructField sfields tns) := by
  induction sfields generalizing tns with
  | nil =>
    simp only [fieldTypeNames, Option.some.injEq] at h
    subst h
    rfl
  | cons p ps ih =>
    cases hp : python_type_name p.2 with
    | none => simp [fieldTypeNames, hp] at h
    | some tn =>
      cases hps : fieldTypeNames ps with
      | none => simp [fieldTypeNames, hp, hps] at h
      | some ts =>
        simp only [fieldTypeNames, hp, hps, Option.some.injEq] at h
        subst h
        simp [structFields, hp, ih hps, mkStructField]

/-! Section: C4: enumeration classes -/

/-- C4 (amended): every enumeration in the catalogue yields exactly one
class declaration whose superclass is `enum.StrEnum` and which has one
field per case; the field name is the *sanitized* case name, while the
quoted string default value uses the raw case name. -/
theorem C4_enum_class {cat : List Ty} {ds : List Declaration} {flag : Bool}
    (name : String) (values : List String)
    (hmem : Ty.Enumeration name values ∈ cat)
    (hcat : catalogueDecls cat = some (ds, flag)) :
    Declaration.Class (enumClass name values) ∈ ds ∧
    flag = true ∧
    (enumClass name values).super_class = some "enum.StrEnum" ∧
    (enumClass name values).fields = values.map (fun val =>
      { name := ident val, ty := none, default_value := some ("\"" ++ val ++ "\"") }) := by
  have hm := mem_catalogue_enum hcat hmem
  refine ⟨hm, ?_, rfl, rfl⟩
  rw [catalogue_flag hcat]
  rw [List.any_eq_true]
  exact ⟨_, hm, by simp [isEnumClassDecl, enumClass]⟩

/-- C4 counterexample: an enumeration with the single case `try`
produces a field named `try_` (the sanitized case name) with string
value `"try"`, so the case's name is not used as the field name. -/
theorem C4_counterexample :
    catalogueDecls [Ty.Enumeration "E" ["try"]] =
      some ([Declaration.Class
        { name := "E", super_class := some "enum.StrEnum",
          fields := [{ name := "try_", ty := none, default_value := some "\"try\"" }],
          function_declarations := [] }], true) ∧
    ("try_" : String) ≠ "try" := ⟨rfl, by decide⟩

/-- Witness for C4 at a concrete catalogue. -/
theorem C4_enum_class_witness :
    Declaration.Class (enumClass "Direction" ["Left", "Right"]) ∈
      [Declaration.Class (enumClass "Direction" ["Left", "Right"])] ∧
    true = true ∧
    (enumClass "Direction" ["Left", "Right"]).super_class = some "enum.StrEnum" ∧
    (enumClass "Direction" ["Left", "Right"]).fields = ["Left", "Right"].map (fun val =>
      { name := ident val, ty := none, default_value := some ("\"" ++ val ++ "\"") }) :=
  C4_enum_class "Direction" ["Left", "Right"] (List.mem_singleton.mpr rfl) rfl

/-! Section: C6: the synthesized struct constructor -/

/-- C6: for every named, declared struct in the catalogue, the emitted
class carries a synthesized `__init__` with no positional parameters
and one keyword parameter per struct field, typed
`Optional`-of-the-mapped-field-type and defaulting to `None`. -/
theorem C6_struct_ctor {cat : List Ty} {ds : List Declaration} {flag : Bool}
    (name : String) (u : Unit) (sfields : List (String × Ty)) (tns : List String)
    (hmem : Ty.Struct (some name) (some u) sfields ∈ cat)
    (hcat : catalogueDecls cat = some (ds, flag))
    (htn : fieldTypeNames sfields = some tns) :
    ∃ fs, structFields sfields = some fs ∧
      Declaration.Class (structClass name fs) ∈ ds ∧
      (structClass name fs).function_declarations = [structCtor fs] ∧
      (structCtor fs).name = "__init__" ∧
      (structCtor fs).positional_parameters = [] ∧
      (structCtor fs).keyword_parameters = List.zipWith
        (fun p tn => ({ name := ident p.1,
                        ty := some { name := tn, optional := true },
                        default_value := some "None" } : Field)) sfields tns := by
  have hsf := structFields_eq_zipWith htn
  refine ⟨_, hsf, mem_catalogue_struct hcat hmem hsf, rfl, rfl, rfl, ?_⟩
  show (List.zipWith mkStructField sfields tns).map _ = _
  rw [List.map_zipWith]
  rfl

/-- Witness for C6 at a concrete catalogue (`Point {x: float, y: float}`). -/
theorem C6_struct_ctor_witness :
    ∃ fs, structFields [("x", Ty.Float32), ("y", Ty.Float32)] = some fs ∧
      Declaration.Class (structClass "Point" fs) ∈
        [Declaration.Class (structClass "Point"
          [{ name := "x", ty := some { name := "float", optional := false }, default_value := none },
           { name := "y", ty := some { name := "float", optional := false }, default_value := none }])] ∧
      (structClass "Point" fs).function_declarations = [structCtor fs] ∧
      (structCtor fs).name = "__init__" ∧
      (structCtor fs).positional_parameters = [] ∧
      (structCtor fs).keyword_parameters = List.zipWith
        (fun p tn => ({ name := ident p.1,
                        ty := some { name := tn, optional := true },
                        default_value := some "None" } : Field))
        [("x", Ty.Float32), ("y", Ty.Float32)] ["float", "float"] := by
  exact @C6_struct_ctor
    [Ty.Struct (some "Point") (some ()) [("x", Ty.Float32), ("y", Ty.Float32)]]
    [Declaration.Class (structClass "Point"
      [{ name := "x", ty := some { name := "float", optional := false }, default_value := none },
       { name := "y", ty := some { name := "float", optional := false }, default_value := none }])]
    false
    "Point" () [("x", Ty.Float32), ("y", Ty.Float32)] ["float", "float"]
    (List.mem_singleton.mpr rfl) (by decide) (by decide)

/-! Section: C9: raw class names versus sanitized type references -/

/-- C9: named-struct and enumeration class declarations keep the raw
source name, while every type reference produced by the type mapper is
sanitized; for a hyphenated or keyword name the two therefore differ. -/
theorem C9_raw_class_names {cat : List Ty} {ds : List Declaration} {flag : Bool}
    (name : String) (u : Unit) (node : Option Unit) (sfields : List (String × Ty))
    (fs : List Field) (values : List String)
    (hcat : catalogueDecls cat = some (ds, flag))
    (hsf : structFields sfields = some fs) :
    (Ty.Struct (some name) node sfields ∈ cat →
      Declaration.Class (structClass name fs) ∈ ds ∧ (structClass name fs).name = name) ∧
    (Ty.Enumeration name values ∈ cat →
      Declaration.Class (enumClass name values) ∈ ds ∧ (enumClass name values).name = name) ∧
    python_type_name (Ty.Struct (some name) (some u) sfields) = some (ident name) ∧
    python_type_name (Ty.Enumeration name values) = some (ident name) ∧
    (name.data.contains '-' = true ∨ is_python_keyword name = true → ident name ≠ name) := by
  refine ⟨fun hmem => ⟨mem_catalogue_struct hcat hmem hsf, rfl⟩,
          fun hmem => ⟨mem_catalogue_enum hcat hmem, rfl⟩,
          by simp [python_type_name], by simp [python_type_name],
          ident_ne_self name⟩

/-- Witness for C9 at the keyword name `try`. -/
theorem C9_raw_class_names_witness :
    Declaration.Class (structClass "try" []) ∈
      [Declaration.Class (structClass "try" []),
       Declaration.Class (enumClass "try" ["a"])] ∧
    (structClass "try" []).name = "try" ∧
    Declaration.Class (enumClass "try" ["a"]) ∈
      [Declaration.Class (structClass "try" []),
       Declaration.Class (enumClass "try" ["a"])] ∧
    (enumClass "try" ["a"]).name = "try" ∧
    python_type_name (Ty.Struct (some "try") (some ()) []) = some (ident "try") ∧
    python_type_name (Ty.Enumeration "try" ["a"]) = some (ident "try") ∧
    ident "try" ≠ "try" := by
  have h := @C9_raw_class_names
    [Ty.Struct (some "try") (some ()) [], Ty.Enumeration "try" ["a"]]
    [Declaration.Class (structClass "try" []), Declaration.Class (enumClass "try" ["a"])]
    true
    "try" () (some ()) [] [] ["a"] rfl rfl
  obtain ⟨h1, h2, h3, h4, h5⟩ := h
  obtain ⟨h1a, h1b⟩ := h1 (List.mem_cons_self _ _)
  obtain ⟨h2a, h2b⟩ := h2 (List.mem_cons_of_mem _ (List.mem_cons_self _ _))
  exact ⟨h1a, h1b, h2a, h2b, h3, h4, h5 (Or.inr (by decide))⟩

/-! Section: C3: public component classes -/

/-- A generated field for one public property, from the property and
its mapped type name. -/
def mkPropField (property : PublicProperty) (tn : String) : Field :=
  { name := ident property.name, ty := some { name := tn, optional := false },
    default_value := none }

/-- The mapped type names of a public-property list (spec-side helper
for stating C3). -/
def propTypeNames : List PublicProperty → Option (List String)
  | [] => some []
  | p :: ps =>
    match python_type_name p.ty, propTypeNames ps with
    | some t, some ts => some (t :: ts)
    | _, _ => none

theorem generate_fields_eq_zipWith {props : List PublicProperty} {tns : List String}
    (h : propTypeNames props = some tns) :
    generate_fields_for_public_properties props =
      some (List.zipWith mkPropField props tns) := by
  induction props generalizing tns with
  | nil =>
    simp only [propTypeNames, Option.some.injEq] at h
    subst h
    rfl
  | cons p ps ih =>
    cases hp : python_type_name p.ty with
    | none => simp [propTypeNames, hp] at h
    | some tn =>
      cases hps : propTypeNames ps with
      | none => simp [propTypeNames, hp, hps] at h
      | some ts =>
        simp only [propTypeNames, hp, hps, Option.some.injEq] at h
        subst h
        simp [generate_fields_for_public_properties, hp, ih hps, mkPropField]

/-- C3: every public component generates a class with superclass
`slint.Component` whose fields are one per public property (sanitized
name, mapped type) extended with one field per passed-in global
dependency, each typed by that global's class name. -/
theorem C3_public_component (component : PublicComponent) (globals : List GlobalComponent)
    (tns : List String) (h : propTypeNames component.public_properties = some tns) :
    generate_public_component component globals = some (Declaration.Class
      { name := ident component.name,
        super_class := some "slint.Component",
        fields := List.zipWith mkPropField component.public_properties tns
          ++ globals.map (fun glob =>
            { name := ident glob.name,
              ty := some { name := ident glob.name, optional := false },
              default_value := none }),
        function_declarations := [] }) := by
  unfold generate_public_component
  rw [generate_fields_eq_zipWith h]

/-- Witness for C3 at a concrete component and global. -/
theorem C3_public_component_witness :
    generate_public_component
      { name := "App", public_properties := [{ name := "count", ty := Ty.Int32 }] }
      [{ name := "Theme", exported := true, must_generate := true, aliases := [],
         public_properties := [] }] =
    some (Declaration.Class
      { name := "App", super_class := some "slint.Component",
        fields := [{ name := "count", ty := some { name := "float", optional := false },
                     default_value := none },
                   { name := "Theme", ty := some { name := "Theme", optional := false },
                     default_value := none }],
        function_declarations := [] }) := by
  rw [C3_public_component _ _ ["float"] (by decide)]
  decide

/-! Section: C7: the import list -/

theorem any_const_false {α : Type} (l : List α) : l.any (fun _ => false) = false := by
  induction l <;> simp [*]

theorem globalDecls_no_enum {gs : List GlobalComponent} {ds : List Declaration}
    (h : generateGlobalDecls gs = some ds) : ds.any isEnumClassDecl = false := by
  induction gs generalizing ds with
  | nil =>
    simp only [generateGlobalDecls, Option.some.injEq] at h
    subst h
    rfl
  | cons g gs ih =>
    cases hg : generate_global g with
    | none => simp [generateGlobalDecls, hg] at h
    | some dg =>
      cases hgs : generateGlobalDecls gs with
      | none => simp [generateGlobalDecls, hg, hgs] at h
      | some rest =>
        simp only [generateGlobalDecls, hg, hgs, Option.some.injEq] at h
        subst h
        rw [List.any_append, ih hgs]
        unfold generate_global at hg
        cases hf : generate_fields_for_public_properties g.public_properties with
        | none => rw [hf] at hg; cases hg
        | some fs =>
          rw [hf] at hg
          obtain rfl := Option.some.inj hg
          simp [isEnumClassDecl, List.any_map, Function.comp, any_const_false]

theorem componentDecls_no_enum {globals : List GlobalComponent}
    {cs : List PublicComponent} {ds : List Declaration}
    (h : generateComponentDecls globals cs = some ds) :
    ds.any isEnumClassDecl = false := by
  induction cs generalizing ds with
  | nil =>
    simp only [generateComponentDecls, Option.some.injEq] at h
    subst h
    rfl
  | cons c cs ih =>
    cases hc : generate_public_component c globals with
    | none => simp [generateComponentDecls, hc] at h
    | some d =>
      cases hcs : generateComponentDecls globals cs with
      | none => simp [generateComponentDecls, hc, hcs] at h
      | some rest =>
        simp only [generateComponentDecls, hc, hcs, Option.some.injEq] at h
        subst h
        rw [List.any_cons, ih hcs]
        unfold generate_public_component at hc
        cases hf : generate_fields_for_public_properties c.public_properties with
        | none => rw [hf] at hc; cases hc
        | some fs =>
          rw [hf] at hc
          obtain rfl := Option.some.inj hc
          rfl

theorem any_map_false {α β : Type} (l : List α) (f : α → β) (p : β → Bool)
    (h : ∀ a, p (f a) = false) : (l.map f).any p = false := by
  induction l with
  | nil => rfl
  | cons a as ih => simp [List.any_cons, h a, ih]

theorem exports_no_enum (exports : Exports) :
    (generate_named_exports exports).any isEnumClassDecl = false := by
  unfold generate_named_exports
  exact any_map_false _ _ _ (fun a => rfl)

/-- C7: in every generated file, the core-runtime import `slint` is
first, the enum-support import `enum` is present exactly when at least
one enumeration class declaration (superclass `enum.StrEnum`) is
emitted, and the import list has no duplicates. -/
theorem C7_generate_imports (env : PathEnv) (doc : Document) (llr : LoweredTree)
    (dest : Option String) (f : File)
    (h : generate env doc llr dest = some f) :
    f.imports.head? = some "slint" ∧
    ("enum" ∈ f.imports ↔ f.declarations.any isEnumClassDecl = true) ∧
    f.imports.Nodup := by
  unfold generate at h
  cases hcat : catalogueDecls doc.structs_and_enums with
  | none => rw [hcat] at h; cases h
  | some pr =>
  obtain ⟨catDecls, need⟩ := pr
  rw [hcat] at h
  dsimp only at h
  cases hglob : generateGlobalDecls
      (llr.globals.filter (fun glob => glob.exported && glob.must_generate)) with
  | none => rw [hglob] at h; cases h
  | some globDecls =>
  rw [hglob] at h
  dsimp only at h
  cases hcomp : generateComponentDecls
      (llr.globals.filter (fun glob => glob.exported && glob.must_generate))
      llr.public_components with
  | none => rw [hcomp] at h; cases h
  | some compDecls =>
  rw [hcomp] at h
  dsimp only at h
  cases hnode : doc.node with
  | none => rw [hnode] at h; cases h
  | some nodePath =>
  rw [hnode] at h
  dsimp only at h
  cases habs : env.absolute nodePath with
  | none => rw [habs] at h; cases h
  | some main_file =>
  rw [habs] at h
  dsimp only at h
  have hdecl : (catDecls ++ globDecls ++ compDecls ++
      generate_named_exports doc.exports).any isEnumClassDecl = need := by
    rw [List.any_append, List.any_append, List.any_append]
    rw [globalDecls_no_enum hglob, componentDecls_no_enum hcomp, exports_no_enum]
    rw [← catalogue_flag hcat]
    simp
  cases hrel : relPathOf env main_file (destDirOf env dest) with
  | none => rw [hrel] at h; cases h
  | some relOpt =>
  rw [hrel] at h
  cases relOpt with
  | none =>
    dsimp only at h
    obtain rfl := Option.some.inj h
    refine ⟨rfl, ?_, ?_⟩
    · rw [hdecl]
      cases need <;> simp
    · cases need <;> simp
  | some rel =>
    dsimp only at h
    cases hfn : env.file_name main_file with
    | none => rw [hfn] at h; cases h
    | some fname =>
    rw [hfn] at h
    dsimp only at h
    obtain rfl := Option.some.inj h
    refine ⟨rfl, ?_, ?_⟩
    · rw [hdecl]
      cases need <;> simp
    · cases need <;> simp

/-- A path environment for concrete evaluations: identity
absolutization, no parents, no file names, no relative paths. -/
def envW : PathEnv :=
  { absolute := fun p => some p,
    parent := fun _ => none,
    file_name := fun _ => none,
    diff_paths := fun _ _ => none,
    join := fun a b => a ++ "/" ++ b }

/-- A document whose catalogue holds one enumeration. -/
def docEnumW : Document :=
  { structs_and_enums := [Ty.Enumeration "Direction" ["Left", "Right"]],
    exports := [],
    node := some "main.slint" }

/-- An empty lowered tree. -/
def llrW : LoweredTree := { globals := [], public_components := [] }

/-- The file generated for `docEnumW`. -/
def fEnumW : File :=
  { imports := ["slint", "typing", "enum"],
    declarations := [Declaration.Class (enumClass "Direction" ["Left", "Right"])],
    trailing_code := [] }

/-- Witness for C7 at a concrete generation run. -/
theorem C7_generate_imports_witness :
    fEnumW.imports.head? = some "slint" ∧
    ("enum" ∈ fEnumW.imports ↔ fEnumW.declarations.any isEnumClassDecl = true) ∧
    fEnumW.imports.Nodup :=
  C7_generate_imports envW docEnumW llrW none fEnumW (by decide)

/-! Section: C8: graceful degradation without a destination path -/

/-- C8: when no destination path is supplied, or no relative path from
the destination directory to the main file's directory can be computed,
`generate` still succeeds, emits no dynamic-load trailing statement and
no `os` import. -/
theorem C8_no_dest_graceful (env : PathEnv) (doc : Document) (llr : LoweredTree)
    (dest : Option String) (catDecls : List Declaration) (need : Bool)
    (globDecls compDecls : List Declaration) (nodePath main_file : String)
    (hcat : catalogueDecls doc.structs_and_enums = some (catDecls, need))
    (hglob : generateGlobalDecls
      (llr.globals.filter (fun glob => glob.exported && glob.must_generate)) = some globDecls)
    (hcomp : generateComponentDecls
      (llr.globals.filter (fun glob => glob.exported && glob.must_generate))
      llr.public_components = some compDecls)
    (hnode : doc.node = some nodePath)
    (habs : env.absolute nodePath = some main_file)
    (hrel : dest = none ∨ relPathOf env main_file (destDirOf env dest) = some none) :
    ∃ f, generate env doc llr dest = some f ∧
      f.trailing_code = [] ∧ "os" ∉ f.imports := by
  have hrel' : relPathOf env main_file (destDirOf env dest) = some none := by
    rcases hrel with h | h
    · subst h; rfl
    · exact h
  refine ⟨{ imports := ["slint", "typing"] ++ (if need then ["enum"] else []),
            declarations := catDecls ++ globDecls ++ compDecls ++
              generate_named_exports doc.exports,
            trailing_code := [] }, ?_, rfl, ?_⟩
  · unfold generate
    rw [hcat]
    dsimp only
    rw [hglob]
    dsimp only
    rw [hcomp]
    dsimp only
    rw [hnode]
    dsimp only
    rw [habs]
    dsimp only
    rw [hrel']
  · cases need <;> simp

/-- A document with an empty catalogue and no exports. -/
def docW : Document := { structs_and_enums := [], exports := [], node := some "main.slint" }

/-- Witness for C8 at a concrete generation run with no destination. -/
theorem C8_no_dest_graceful_witness :
    ∃ f, generate envW docW llrW none = some f ∧
      f.trailing_code = [] ∧ "os" ∉ f.imports :=
  C8_no_dest_graceful envW docW llrW none [] false [] [] "main.slint" "main.slint"
    rfl rfl rfl rfl rfl (Or.inl rfl)

/-! Section: C10: empty classes render as `pass` -/

/-- C10: a class with no fields and no function declarations renders
with the single body statement `pass`; in particular a global with an
empty public-property list produces exactly such a class. -/
theorem C10_empty_class_pass (c : Class) (g : GlobalComponent)
    (hc1 : c.fields = []) (hc2 : c.function_declarations = [])
    (hg : g.public_properties = []) :
    renderClass c = renderClassHeader c ++ "    pass\n" ∧
    generate_global g = some (Declaration.Class
      { name := ident g.name, super_class := none, fields := [],
        function_declarations := [] }
      :: g.aliases.map (fun a =>
           Declaration.Variable { name := ident a, value := ident g.name })) := by
  constructor
  · rw [renderClass, hc1, hc2]
    rfl
  · rw [generate_global, hg]
    rfl

/-- Witness for C10 at a concrete class and global. -/
theorem C10_empty_class_pass_witness :
    renderClass { name := "G", super_class := none, fields := [],
                  function_declarations := [] } = "class G:\n    pass\n" ∧
    generate_global { name := "G", exported := true, must_generate := true,
                      aliases := ["A"], public_properties := [] } =
      some [Declaration.Class
              { name := "G", super_class := none, fields := [],
                function_declarations := [] },
            Declaration.Variable { name := "A", value := "G" }] := by
  obtain ⟨h1, h2⟩ := C10_empty_class_pass
    { name := "G", super_class := none, fields := [], function_declarations := [] }
    { name := "G", exported := true, must_generate := true, aliases := ["A"],
      public_properties := [] } rfl rfl rfl
  constructor
  · rw [h1]; rfl
  · rw [h2]; rfl

end SlintPy
